import Mathlib

/-!
Shallow embedding of the smart-entsoe XML→tabular normalization pipeline:
`src/lib/xml-parser.ts` (parseEntsoeXML and its parser configuration) and
`src/lib/a44-normalize.ts` (parseResolutionMinutes, toDate,
getUtcInstantFromRow, normalizeA44), together with the fragments of the
JavaScript platform they rely on (ISO-8601 `Date` parsing, `Number`
coercion, Europe/Paris rendering via `Intl.DateTimeFormat`).
-/

/-- JavaScript runtime values as they occur in a normalized row:
`undefined`, `null`, strings, numbers, and `Date` objects (held as their
epoch-millisecond value; only valid dates reach `normalizeA44` because
`parseEntsoeXML` throws before emitting an invalid one). -/
inductive JVal where
  | vundef
  | vnull
  | vstr (s : String)
  | vnum (q : Rat)
  | vdate (ms : Int)
deriving DecidableEq, Repr

/-- A JavaScript object used as a row: ordered key/value pairs, first
occurrence of a key wins on read (JS objects have unique keys, so the
model coincides with them there). -/
def JRow := List (String × JVal)

/-- Property read `row[k]`; a missing key reads as `undefined`. -/
def jGet : JRow → String → JVal
  | [], _ => .vundef
  | (k', v') :: rest, k => if k' = k then v' else jGet rest k

/-- Property write as done by an object spread `{...row, k: v}`:
replaces the first binding of `k`, or appends one. -/
def jSet : JRow → String → JVal → JRow
  | [], k, v => [(k, v)]
  | (k', v') :: rest, k, v =>
    if k' = k then (k, v) :: rest else (k', v') :: jSet rest k v

theorem jGet_jSet_same (r : JRow) (k : String) (v : JVal) :
    jGet (jSet r k v) k = v := by
  induction r with
  | nil => simp [jGet, jSet]
  | cons hd tl ih =>
    obtain ⟨k', v'⟩ := hd
    by_cases h : k' = k <;> simp [jGet, jSet, h, ih]

theorem jGet_jSet_ne (r : JRow) (k k' : String) (v : JVal) (h : k ≠ k') :
    jGet (jSet r k v) k' = jGet r k' := by
  induction r with
  | nil => simp [jGet, jSet, h]
  | cons hd tl ih =>
    obtain ⟨k0, v0⟩ := hd
    by_cases h0 : k0 = k
    · subst h0
      simp [jGet, jSet, h]
    · by_cases h1 : k0 = k' <;> simp [jGet, jSet, h0, h1, ih, Ne.symm h]

/-! ### Calendar arithmetic (proleptic Gregorian, epoch 1970-01-01) -/

/-- Days from 1970-01-01 to the civil date y-m-d (Hinnant's algorithm). -/
def daysFromCivil (y : Int) (m d : Nat) : Int :=
  let y' : Int := if m ≤ 2 then y - 1 else y
  let era : Int := (if 0 ≤ y' then y' else y' - 399) / 400
  let yoe : Nat := (y' - era * 400).toNat
  let mp : Nat := (m + 9) % 12
  let doy : Nat := (153 * mp + 2) / 5 + d - 1
  let doe : Nat := yoe * 365 + yoe / 4 - yoe / 100 + doy
  era * 146097 + (doe : Int) - 719468

/-- Civil date (year, month, day) of a day count from 1970-01-01. -/
def civilFromDays (z : Int) : Int × Nat × Nat :=
  let z' : Int := z + 719468
  let era : Int := (if 0 ≤ z' then z' else z' - 146096) / 146097
  let doe : Nat := (z' - era * 146097).toNat
  let yoe : Nat := (doe - doe / 1460 + doe / 36524 - doe / 146096) / 365
  let y : Int := (yoe : Int) + era * 400
  let doy : Nat := doe - (365 * yoe + yoe / 4 - yoe / 100)
  let mp : Nat := (5 * doy + 2) / 153
  let d : Nat := doy - (153 * mp + 2) / 5 + 1
  let m : Nat := if mp < 10 then mp + 3 else mp - 9
  (if m ≤ 2 then y + 1 else y, m, d)

def isLeapYear (y : Int) : Bool :=
  y % 4 = 0 && (y % 100 ≠ 0 || y % 400 = 0)

def daysInMonth (y : Int) (m : Nat) : Nat :=
  if m = 2 then (if isLeapYear y then 29 else 28)
  else if m = 4 ∨ m = 6 ∨ m = 9 ∨ m = 11 then 30
  else 31

/-- Epoch milliseconds of a UTC civil date-time. -/
def msOfCivil (y : Int) (mo d hh mi ss : Nat) : Int :=
  daysFromCivil y mo d * 86400000 + (hh : Int) * 3600000 +
    (mi : Int) * 60000 + (ss : Int) * 1000

def pad2 (n : Nat) : String :=
  if n < 10 then "0" ++ toString n else toString n

/-! ### Platform fragment: ISO-8601 `Date` parsing

`new Date(string)` on the ISO-8601 UTC forms used by the ENTSO-E feed
(`YYYY-MM-DD`, `YYYY-MM-DDTHH:MMZ`, `YYYY-MM-DDTHH:MM:SSZ`,
`YYYY-MM-DDTHH:MM:SS.sssZ`). Any other string is modelled as an invalid
date, i.e. `none`. -/

def digitVal (c : Char) : Nat := c.toNat - 48

def twoDigits (a b : Char) : Option Nat :=
  if a.isDigit ∧ b.isDigit then some (digitVal a * 10 + digitVal b) else none

def fourDigits (a b c d : Char) : Option Nat :=
  if a.isDigit ∧ b.isDigit ∧ c.isDigit ∧ d.isDigit then
    some (digitVal a * 1000 + digitVal b * 100 + digitVal c * 10 + digitVal d)
  else none

def mkDateMs (y mo d hh mi ss : Nat) : Option Int :=
  if 1 ≤ mo ∧ mo ≤ 12 ∧ 1 ≤ d ∧ d ≤ daysInMonth (y : Int) mo ∧
      hh ≤ 23 ∧ mi ≤ 59 ∧ ss ≤ 59 then
    some (msOfCivil (y : Int) mo d hh mi ss)
  else none

def parseDateChars : List Char → Option Int
  | [y1, y2, y3, y4, '-', m1, m2, '-', d1, d2] => do
    let y ← fourDigits y1 y2 y3 y4
    let mo ← twoDigits m1 m2
    let d ← twoDigits d1 d2
    mkDateMs y mo d 0 0 0
  | y1 :: y2 :: y3 :: y4 :: '-' :: m1 :: m2 :: '-' :: d1 :: d2 :: 'T' ::
      h1 :: h2 :: ':' :: n1 :: n2 :: rest => do
    let y ← fourDigits y1 y2 y3 y4
    let mo ← twoDigits m1 m2
    let d ← twoDigits d1 d2
    let hh ← twoDigits h1 h2
    let mi ← twoDigits n1 n2
    match rest with
    | ['Z'] => mkDateMs y mo d hh mi 0
    | [':', s1, s2, 'Z'] => do
      let ss ← twoDigits s1 s2
      mkDateMs y mo d hh mi ss
    | [':', s1, s2, '.', f1, f2, f3, 'Z'] => do
      let ss ← twoDigits s1 s2
      let f12 ← twoDigits f1 f2
      let f3v ← twoDigits '0' f3
      let base ← mkDateMs y mo d hh mi ss
      pure (base + (f12 : Int) * 10 + (f3v : Int))
    | _ => none
  | _ => none

/-- Models `new Date(s).getTime()` restricted to the ISO-8601 UTC forms;
`none` stands for an invalid date (`NaN`). -/
def parseDate (s : String) : Option Int :=
  parseDateChars s.toList

/-! ### Platform fragment: Europe/Paris rendering

Models the two `Intl.DateTimeFormat` instances of `a44-normalize.ts`
(`timeZone: "Europe/Paris"`), using the EU daylight-saving rule: UTC+2
from the last Sunday of March 01:00 UTC to the last Sunday of October
01:00 UTC, UTC+1 otherwise. -/

/-- Day of week of a day count; 0 = Sunday (1970-01-01 was a Thursday). -/
def dayOfWeek (z : Int) : Nat := ((z + 4).emod 7).toNat

def lastSundayDay (y : Int) (m : Nat) : Nat :=
  let last := daysInMonth y m
  last - dayOfWeek (daysFromCivil y m last)

def parisOffsetMinutes (ms : Int) : Int :=
  let y := (civilFromDays (ms.fdiv 86400000)).1
  let dstStart := msOfCivil y 3 (lastSundayDay y 3) 1 0 0
  let dstEnd := msOfCivil y 10 (lastSundayDay y 10) 1 0 0
  if dstStart ≤ ms ∧ ms < dstEnd then 120 else 60

/-- The `dfParisDate` formatter assembled as in the source:
year, month, day parts joined as YYYY-MM-DD. -/
def parisDateString (ms : Int) : String :=
  let localMs := ms + parisOffsetMinutes ms * 60000
  let c := civilFromDays (localMs.fdiv 86400000)
  toString c.1 ++ "-" ++ pad2 c.2.1 ++ "-" ++ pad2 c.2.2

/-- The `dfParisTime` formatter: HH:mm, 24-hour clock. -/
def parisTimeString (ms : Int) : String :=
  let localMs := ms + parisOffsetMinutes ms * 60000
  pad2 ((localMs.fdiv 3600000).emod 24).toNat ++ ":" ++
    pad2 ((localMs.fdiv 60000).emod 60).toNat

/-- `local.setSeconds(0, 0)`: floors the instant to the minute. All
timezone offsets involved are whole minutes, so the result does not
depend on the runtime's local timezone. -/
def zeroSeconds (ms : Int) : Int := ms - ms.emod 60000

/-! ### Embedding of `src/lib/a44-normalize.ts` -/

/-- `Number(x)` (JS ToNumber) on the values of the model; `none` is NaN.
String conversion covers the decimal-integer fragment. -/
def jsStrToNumber (s : String) : Option Rat :=
  if s = "" then some 0
  else
    match s.toList with
    | '-' :: rest =>
      if rest ≠ [] ∧ rest.all Char.isDigit then
        some (-(rest.foldl (fun a c => a * 10 + digitVal c) 0 : Rat))
      else none
    | cs =>
      if cs.all Char.isDigit then
        some ((cs.foldl (fun a c => a * 10 + digitVal c) 0 : Rat))
      else none

def jsToNumber : JVal → Option Rat
  | .vnum q => some q
  | .vstr s => jsStrToNumber s
  | .vnull => some 0
  | .vundef => none
  | .vdate ms => some (ms : Rat)

/-- `new Date(number)` stores the number truncated toward zero. -/
def jsTrunc (q : Rat) : Int := q.num.tdiv (q.den : Int)

/-- `parseResolutionMinutes` helper: the `/^PT(\d+)M$/i` match,
returning the digit group's value. -/
def ptMinutesQ : String → Option Nat := fun s =>
  match s.toList with
  | p :: t :: rest =>
    match rest.getLast? with
    | some m =>
      let digits := rest.dropLast
      if (p = 'P' ∨ p = 'p') ∧ (t = 'T' ∨ t = 't') ∧ (m = 'M' ∨ m = 'm') ∧
          digits ≠ [] ∧ digits.all Char.isDigit then
        some (digits.foldl (fun a c => a * 10 + digitVal c) 0)
      else none
    | none => none
  | _ => none

/-- `parseResolutionMinutes` from `a44-normalize.ts`: non-strings give
15; a string matching `PT(\d+)M` (case-insensitive) gives the digits as
minutes; any other string gives 15. -/
def parseResolutionMinutes (res : JVal) : Int :=
  match res with
  | .vstr s =>
    match ptMinutesQ s with
    | some n => (n : Int)
    | none => 15
  | _ => 15

/-- `toDate` from `a44-normalize.ts`: a `Date` is returned as-is, a
string goes through `new Date` with a NaN check, anything else is null. -/
def toDate : JVal → Option Int
  | .vdate ms => some ms
  | .vstr s => parseDate s
  | _ => none

/-- `getUtcInstantFromRow`: `timeStart + (position-1) * resolution`,
falling back to the row's own `timestamp` field only when the time-start
does not parse or the position is not a finite number. -/
def getUtcInstantFromRow (row : JRow) : Option Int :=
  match toDate (jGet row "timeStart"), jsToNumber (jGet row "position") with
  | some t0, some pos =>
    let step := parseResolutionMinutes (jGet row "resolution")
    some (jsTrunc ((t0 : Rat) + (pos - 1) * (step : Rat) * 60000))
  | some _, none => toDate (jGet row "timestamp")
  | none, _ => toDate (jGet row "timestamp")

/-- The per-row body of `normalizeA44`: computes the display fields and
overwrites `date`, `heure` and `timestamp` by object spread. -/
def normRow (row : JRow) : JRow :=
  match getUtcInstantFromRow row with
  | none =>
    jSet (jSet (jSet row "date" (.vstr "-")) "heure" (.vstr "-"))
      "timestamp" .vnull
  | some t =>
    let lo := zeroSeconds t
    let dateStr := parisDateString lo
    let heureStr := parisTimeString lo
    jSet (jSet (jSet row "date" (.vstr dateStr)) "heure" (.vstr heureStr))
      "timestamp" (.vstr (dateStr ++ " " ++ heureStr))

/-- `normalizeA44`: maps the row body over the input list. -/
def normalizeA44 (rows : List JRow) : List JRow :=
  rows.map normRow

/-! ### Embedding of `src/lib/xml-parser.ts` -/

/-- The element names the `XMLParser` configuration forces to arrays
(`isArray` option). -/
def isArrayNames : List String :=
  ["TimeSeries", "Period", "Point", "MktPSRType", "Reason"]

/-- The `isArray` callback handed to the `XMLParser` constructor. -/
def isArrayElement (name : String) : Bool :=
  isArrayNames.contains name

/-- `x || d` on an optional string: JS falls through to the default on
`undefined` and on the empty string. -/
def jsOrStr (o : Option String) (d : String) : String :=
  match o with
  | some s => if s = "" then d else s
  | none => d

structure MktPSR where
  psrType : Option String
deriving DecidableEq, Repr

structure MarketParticipant where
  mRID : Option String
deriving DecidableEq, Repr

structure ResourceProvider where
  marketParticipant : Option MarketParticipant
deriving DecidableEq, Repr

structure TimeInterval where
  start : Option String
  «end» : Option String
deriving DecidableEq, Repr

/-- A `<Point>` as decoded by fast-xml-parser: numeric leaf elements are
already numbers (positions are integral in the schema); a missing
element is `none`. `price_amount` is the dotted key `"price.amount"`. -/
structure Point where
  position : Option Int
  quantity : Option Rat
  price_amount : Option Rat
deriving DecidableEq, Repr

structure Period where
  timeInterval : Option TimeInterval
  resolution : Option String
  Point : Option (List Point)
deriving DecidableEq, Repr

/-- A `<TimeSeries>`; the five dotted metadata keys (`"in_Domain.mRID"`
etc.) are kept as arbitrary values because the source guards them with a
`typeof x === "string"` check. -/
structure Series where
  businessType : Option String
  curveType : Option String
  in_Domain_mRID : Option JVal
  out_Domain_mRID : Option JVal
  price_Measure_Unit_name : Option JVal
  currency_Unit_name : Option JVal
  quantity_Measure_Unit_name : Option JVal
  resourceProvider : Option ResourceProvider
  MktPSRType : Option (List MktPSR)
  Period : Option (List Period)
deriving DecidableEq, Repr

structure PubDoc where
  type : Option String
  mRID : Option String
  createdDateTime : Option String
  TimeSeries : Option (List Series)
deriving DecidableEq, Repr

/-- Result of `parser.parse`: at most one of the four known roots is
bound to a document object (object values are truthy in JS, so `||`
chains act as `Option.orElse`). -/
structure ParsedXml where
  Publication_MarketDocument : Option PubDoc
  GL_MarketDocument : Option PubDoc
  Unavailability_MarketDocument : Option PubDoc
  BalancingMarketDocument : Option PubDoc
deriving DecidableEq, Repr

/-- The `parsed?.Publication_MarketDocument || parsed?.GL_MarketDocument
|| parsed?.Unavailability_MarketDocument || parsed?.BalancingMarketDocument`
chain. -/
def publicationOf (p : ParsedXml) : Option PubDoc :=
  ((p.Publication_MarketDocument.orElse fun _ =>
    p.GL_MarketDocument).orElse fun _ =>
      p.Unavailability_MarketDocument).orElse fun _ =>
        p.BalancingMarketDocument

inductive ParseErr where
  | noRoot
  | invalidTime
deriving DecidableEq, Repr

/-- The in-code `resolutionMap` record `{PT15M: 15, PT30M: 30, PT60M: 60}`. -/
def resolutionMap (c : String) : Option Int :=
  if c = "PT15M" then some 15
  else if c = "PT30M" then some 30
  else if c = "PT60M" then some 60
  else none

/-- `resolutionMap[resolution] ?? 60`. -/
def xmlResolutionMinutes (c : String) : Int :=
  (resolutionMap c).getD 60

/-- `typeof x === "string" ? x : "Unknown"` (note: no falsiness check,
an empty string is kept). -/
def strOrUnknown (v : Option JVal) : String :=
  match v with
  | some (.vstr s) => s
  | _ => "Unknown"

/-- `series.MktPSRType?.[0]?.psrType || undefined`. -/
def resourceTypeOf (s : Series) : Option String :=
  match (s.MktPSRType.bind fun l => l.head?).bind fun m => m.psrType with
  | some str => if str = "" then none else some str
  | none => none

/-- The per-series metadata resolved at the top of the series loop. -/
structure SeriesMeta where
  businessType : String
  curveType : String
  inDomain : String
  outDomain : String
  priceMeasureUnit : String
  currencyUnit : String
  quantityMeasureUnit : String
  resourceProvider : String
  resourceType : Option String
deriving DecidableEq, Repr

def seriesMeta (s : Series) : SeriesMeta where
  businessType := jsOrStr s.businessType "Unknown"
  curveType := jsOrStr s.curveType "Unknown"
  inDomain := strOrUnknown s.in_Domain_mRID
  outDomain := strOrUnknown s.out_Domain_mRID
  priceMeasureUnit := strOrUnknown s.price_Measure_Unit_name
  currencyUnit := strOrUnknown s.currency_Unit_name
  quantityMeasureUnit := strOrUnknown s.quantity_Measure_Unit_name
  resourceProvider :=
    jsOrStr ((s.resourceProvider.bind fun rp =>
      rp.marketParticipant).bind fun mp => mp.mRID) "Unknown"
  resourceType := resourceTypeOf s

/-- Document-level context extracted before the series loop. -/
structure DocCtx where
  documentId : String
  documentType : String
  createdDateTime : String
deriving DecidableEq, Repr

/-- One output record of `parseEntsoeXML` (`EntsoePoint` in the source).
`timestamp` is the epoch-millisecond value of the reconstructed `Date`. -/
structure EntsoeRow where
  documentId : String
  documentType : String
  createdDateTime : String
  businessType : String
  curveType : String
  timeStart : String
  timeEnd : String
  date : String
  resolution : String
  position : Int
  quantity : Rat
  priceMeasureUnit : String
  currencyUnit : String
  quantityMeasureUnit : String
  inDomain : String
  outDomain : String
  resourceProvider : String
  price : Option Rat
  resourceType : Option String
  timestamp : Int
deriving DecidableEq, Repr

/-- `toISOString().slice(0, 10)`: the UTC date part YYYY-MM-DD. -/
def isoDateString (ms : Int) : String :=
  let c := civilFromDays (ms.fdiv 86400000)
  toString c.1 ++ "-" ++ pad2 c.2.1 ++ "-" ++ pad2 c.2.2

/-- Sequential effectful traversal as performed by `forEach` with a
possible thrown exception: the first error aborts the whole call. -/
def exceptMapM {α β : Type} (f : α → Except ParseErr β) :
    List α → Except ParseErr (List β)
  | [] => .ok []
  | x :: xs =>
    match f x with
    | .error e => .error e
    | .ok y =>
      match exceptMapM f xs with
      | .error e => .error e
      | .ok ys => .ok (y :: ys)

/-- The body of the innermost `points.forEach`. `startMs` is
`new Date(timeInterval.start).getTime()` (`none` = NaN); when it is NaN
the reconstructed `Date` is invalid and `toISOString()` throws, which the
outer catch rethrows — modelled as `.error .invalidTime`. -/
def pointRow (dc : DocCtx) (m : SeriesMeta) (startStr endStr resCode : String)
    (resMin : Int) (startMs : Option Int) (pt : Point) :
    Except ParseErr EntsoeRow :=
  let position : Int := pt.position.getD 0
  let quantity : Rat := pt.quantity.getD 0
  let price : Option Rat := pt.price_amount
  match startMs with
  | none => .error .invalidTime
  | some s =>
    let ts : Int := s + (position - 1) * resMin * 60000
    .ok {
      documentId := dc.documentId
      documentType := dc.documentType
      createdDateTime := dc.createdDateTime
      businessType := m.businessType
      curveType := m.curveType
      timeStart := startStr
      timeEnd := endStr
      date := isoDateString ts
      resolution := resCode
      position := position
      quantity := quantity
      priceMeasureUnit := m.priceMeasureUnit
      currencyUnit := m.currencyUnit
      quantityMeasureUnit := m.quantityMeasureUnit
      inDomain := m.inDomain
      outDomain := m.outDomain
      resourceProvider := m.resourceProvider
      price := price
      resourceType := m.resourceType
      timestamp := ts
    }

/-- The body of the `periods.forEach` loop. -/
def periodRows (dc : DocCtx) (m : SeriesMeta) (per : Period) :
    Except ParseErr (List EntsoeRow) :=
  let startStr := jsOrStr (per.timeInterval.bind fun ti => ti.start) "Unknown"
  let endStr := jsOrStr (per.timeInterval.bind fun ti => ti.«end») "Unknown"
  let resolution := jsOrStr per.resolution "PT60M"
  let resolutionMinutes := xmlResolutionMinutes resolution
  let startMs := parseDate startStr
  let points := per.Point.getD []
  if points.length = 0 then .ok []
  else exceptMapM (pointRow dc m startStr endStr resolution
    resolutionMinutes startMs) points

/-- The body of the `timeSeries.forEach` loop. -/
def seriesRows (dc : DocCtx) (s : Series) : Except ParseErr (List EntsoeRow) :=
  let m := seriesMeta s
  let periods := s.Period.getD []
  if periods.length = 0 then .ok []
  else
    match exceptMapM (periodRows dc m) periods with
    | .error e => .error e
    | .ok ls => .ok ls.flatten

/-- `parseEntsoeXML` on an already-parsed document tree. -/
def parseEntsoeXML (p : ParsedXml) : Except ParseErr (List EntsoeRow) :=
  match publicationOf p with
  | none => .error .noRoot
  | some pub =>
    let dc : DocCtx := {
      documentId := jsOrStr pub.mRID "Unknown"
      documentType := jsOrStr pub.type "Unknown"
      createdDateTime := jsOrStr pub.createdDateTime "Unknown"
    }
    let ts := pub.TimeSeries.getD []
    if ts.length = 0 then .ok []
    else
      match exceptMapM (seriesRows dc) ts with
      | .error e => .error e
      | .ok ls => .ok ls.flatten

/-- Point count of one series: the sum of its periods' point counts. -/
def seriesPointCount (s : Series) : Nat :=
  (((s.Period.getD []).map fun per => (per.Point.getD []).length)).sum

/-- Total point count of a publication document. -/
def totalPoints (pub : PubDoc) : Nat :=
  ((pub.TimeSeries.getD []).map seriesPointCount).sum

/-! ### Traversal lemmas -/

theorem exceptMapM_ok_length {α β : Type} (f : α → Except ParseErr β) :
    ∀ (l : List α) (ys : List β), exceptMapM f l = .ok ys →
      ys.length = l.length := by
  intro l
  induction l with
  | nil =>
    intro ys h
    simp only [exceptMapM] at h
    cases h
    rfl
  | cons x xs ih =>
    intro ys h
    simp only [exceptMapM] at h
    cases hx : f x with
    | error e => rw [hx] at h; cases h
    | ok y =>
      rw [hx] at h
      cases hr : exceptMapM f xs with
      | error e => rw [hr] at h; cases h
      | ok ys' =>
        rw [hr] at h
        cases h
        simp [ih ys' hr]

theorem exceptMapM_ok_mem {α β : Type} (f : α → Except ParseErr β) :
    ∀ (l : List α) (ys : List β), exceptMapM f l = .ok ys →
      ∀ y ∈ ys, ∃ x ∈ l, f x = .ok y := by
  intro l
  induction l with
  | nil =>
    intro ys h
    simp only [exceptMapM] at h
    cases h
    intro y hy
    cases hy
  | cons x xs ih =>
    intro ys h
    simp only [exceptMapM] at h
    cases hx : f x with
    | error e => rw [hx] at h; cases h
    | ok y0 =>
      rw [hx] at h
      cases hr : exceptMapM f xs with
      | error e => rw [hr] at h; cases h
      | ok ys' =>
        rw [hr] at h
        cases h
        intro y hy
        rcases List.mem_cons.mp hy with h0 | h0
        · exact ⟨x, List.mem_cons_self x xs, h0 ▸ hx⟩
        · rcases ih ys' hr y h0 with ⟨x', hx', hfx'⟩
          exact ⟨x', List.mem_cons_of_mem x hx', hfx'⟩

theorem exceptMapM_error {α β : Type} (f : α → Except ParseErr β) :
    ∀ (l : List α) (e : ParseErr), exceptMapM f l = .error e →
      ∃ x ∈ l, f x = .error e := by
  intro l
  induction l with
  | nil =>
    intro e h
    simp only [exceptMapM] at h
    cases h
  | cons x xs ih =>
    intro e h
    simp only [exceptMapM] at h
    cases hx : f x with
    | error e' =>
      rw [hx] at h
      cases h
      exact ⟨x, List.mem_cons_self x xs, hx⟩
    | ok y =>
      rw [hx] at h
      cases hr : exceptMapM f xs with
      | error e' =>
        rw [hr] at h
        cases h
        rcases ih e hr with ⟨x', hx', hfx'⟩
        exact ⟨x', List.mem_cons_of_mem x hx', hfx'⟩
      | ok ys' => rw [hr] at h; cases h

theorem exceptMapM_ok_map_eq {α β γ : Type} (f : α → Except ParseErr β)
    (g : α → γ) (hv : β → γ) (hp : ∀ x y, f x = .ok y → hv y = g x) :
    ∀ (l : List α) (ys : List β), exceptMapM f l = .ok ys →
      ys.map hv = l.map g := by
  intro l
  induction l with
  | nil =>
    intro ys h
    simp only [exceptMapM] at h
    cases h
    rfl
  | cons x xs ih =>
    intro ys h
    simp only [exceptMapM] at h
    cases hx : f x with
    | error e => rw [hx] at h; cases h
    | ok y =>
      rw [hx] at h
      cases hr : exceptMapM f xs with
      | error e => rw [hr] at h; cases h
      | ok ys' =>
        rw [hr] at h
        cases h
        simp [hp x y hx, ih ys' hr]

/-! ### Pipeline lemmas -/

theorem periodRows_ok_length (dc : DocCtx) (m : SeriesMeta) (per : Period)
    (rows : List EntsoeRow) (h : periodRows dc m per = .ok rows) :
    rows.length = (per.Point.getD []).length := by
  simp only [periodRows] at h
  split at h
  · cases h
    rename_i hc
    simp [hc]
  · exact exceptMapM_ok_length _ _ _ h

theorem seriesRows_ok_length (dc : DocCtx) (s : Series)
    (rows : List EntsoeRow) (h : seriesRows dc s = .ok rows) :
    rows.length = seriesPointCount s := by
  simp only [seriesRows] at h
  split at h
  · cases h
    rename_i hc
    simp [seriesPointCount, List.length_eq_zero.mp hc]
  · split at h
    · cases h
    · cases h
      rename_i ls hm
      have hmap := exceptMapM_ok_map_eq (periodRows dc (seriesMeta s))
        (fun per => (per.Point.getD []).length) List.length
        (fun per rows hok => periodRows_ok_length dc (seriesMeta s) per rows hok)
        _ _ hm
      simp [seriesPointCount, List.length_flatten, hmap]

theorem parseEntsoeXML_ok_length (p : ParsedXml) (pub : PubDoc)
    (rows : List EntsoeRow) (hp : publicationOf p = some pub)
    (h : parseEntsoeXML p = .ok rows) : rows.length = totalPoints pub := by
  simp only [parseEntsoeXML, hp] at h
  split at h
  · cases h
    rename_i hc
    simp [totalPoints, List.length_eq_zero.mp hc]
  · split at h
    · cases h
    · cases h
      rename_i ls hm
      have hmap := exceptMapM_ok_map_eq _ seriesPointCount List.length
        (fun s rows hok => seriesRows_ok_length _ s rows hok) _ _ hm
      simp [totalPoints, List.length_flatten, hmap]

/-- The timestamp invariant carried by every emitted row: the stored
`timestamp` is the parsed `timeStart` plus `(position - 1)` resolution
steps, with the resolution minutes read off the row's own stored
resolution code. -/
def rowTimestampInv (r : EntsoeRow) : Prop :=
  ∃ s, parseDate r.timeStart = some s ∧
    r.timestamp = s + (r.position - 1) * xmlResolutionMinutes r.resolution * 60000

theorem pointRow_ok_inv (dc : DocCtx) (m : SeriesMeta) (ss es rc : String)
    (pt : Point) (r : EntsoeRow)
    (h : pointRow dc m ss es rc (xmlResolutionMinutes rc) (parseDate ss) pt = .ok r) :
    rowTimestampInv r := by
  simp only [pointRow] at h
  cases hs : parseDate ss with
  | none => rw [hs] at h; cases h
  | some s =>
    rw [hs] at h
    cases h
    exact ⟨s, hs, rfl⟩

theorem periodRows_ok_mem_inv (dc : DocCtx) (m : SeriesMeta) (per : Period)
    (rows : List EntsoeRow) (h : periodRows dc m per = .ok rows) :
    ∀ r ∈ rows, rowTimestampInv r := by
  simp only [periodRows] at h
  split at h
  · cases h
    intro r hr
    cases hr
  · intro r hr
    rcases exceptMapM_ok_mem _ _ _ h r hr with ⟨pt, _, hok⟩
    exact pointRow_ok_inv _ _ _ _ _ _ _ hok

theorem seriesRows_ok_mem_inv (dc : DocCtx) (s : Series)
    (rows : List EntsoeRow) (h : seriesRows dc s = .ok rows) :
    ∀ r ∈ rows, rowTimestampInv r := by
  simp only [seriesRows] at h
  split at h
  · cases h
    intro r hr
    cases hr
  · split at h
    · cases h
    · cases h
      rename_i ls hm
      intro r hr
      rcases List.mem_flatten.mp hr with ⟨rows', hrows', hrmem⟩
      rcases exceptMapM_ok_mem _ _ _ hm rows' hrows' with ⟨per, _, hok⟩
      exact periodRows_ok_mem_inv _ _ _ _ hok r hrmem

theorem parseEntsoeXML_ok_mem_inv (p : ParsedXml) (rows : List EntsoeRow)
    (h : parseEntsoeXML p = .ok rows) : ∀ r ∈ rows, rowTimestampInv r := by
  cases hp : publicationOf p with
  | none =>
    simp only [parseEntsoeXML, hp] at h
    cases h
  | some pub =>
    simp only [parseEntsoeXML, hp] at h
    split at h
    · cases h
      intro r hr
      cases hr
    · split at h
      · cases h
      · cases h
        rename_i ls hm
        intro r hr
        rcases List.mem_flatten.mp hr with ⟨rows', hrows', hrmem⟩
        rcases exceptMapM_ok_mem _ _ _ hm rows' hrows' with ⟨s, _, hok⟩
        exact seriesRows_ok_mem_inv _ _ _ hok r hrmem

theorem pointRow_error (dc : DocCtx) (m : SeriesMeta) (ss es rc : String)
    (rm : Int) (sm : Option Int) (pt : Point) (e : ParseErr)
    (h : pointRow dc m ss es rc rm sm pt = .error e) : e = .invalidTime := by
  simp only [pointRow] at h
  cases sm with
  | none =>
    cases h
    rfl
  | some s => cases h

theorem periodRows_error (dc : DocCtx) (m : SeriesMeta) (per : Period)
    (e : ParseErr) (h : periodRows dc m per = .error e) : e = .invalidTime := by
  simp only [periodRows] at h
  split at h
  · cases h
  · rcases exceptMapM_error _ _ _ h with ⟨pt, _, hpt⟩
    exact pointRow_error _ _ _ _ _ _ _ _ _ hpt

theorem seriesRows_error (dc : DocCtx) (s : Series) (e : ParseErr)
    (h : seriesRows dc s = .error e) : e = .invalidTime := by
  simp only [seriesRows] at h
  split at h
  · cases h
  · split at h
    · cases h
      rename_i hm
      rcases exceptMapM_error _ _ _ hm with ⟨per, _, hper⟩
      exact periodRows_error _ _ _ _ hper
    · cases h

/-! ### Concrete sample data -/

def samplePoint : Point :=
  { position := some 1, quantity := some 100, price_amount := some 50 }

def samplePoint2 : Point :=
  { position := some 2, quantity := none, price_amount := none }

def sampleInterval : TimeInterval :=
  { start := some "2024-01-01T00:00Z", «end» := some "2024-01-02T00:00Z" }

def samplePeriod : Period :=
  { timeInterval := some sampleInterval, resolution := some "PT60M",
    Point := some [samplePoint, samplePoint2] }

def bareSeries : Series :=
  { businessType := none, curveType := none, in_Domain_mRID := none,
    out_Domain_mRID := none, price_Measure_Unit_name := none,
    currency_Unit_name := none, quantity_Measure_Unit_name := none,
    resourceProvider := none, MktPSRType := none, Period := none }

def psrSeries : Series :=
  { bareSeries with MktPSRType := some [{ psrType := some "B16" }] }

def sampleSeries : Series :=
  { businessType := some "A62", curveType := some "A01",
    in_Domain_mRID := some (.vstr "10YFR-RTE------C"),
    out_Domain_mRID := some (.vstr "10YFR-RTE------C"),
    price_Measure_Unit_name := some (.vstr "MWH"),
    currency_Unit_name := some (.vstr "EUR"),
    quantity_Measure_Unit_name := none,
    resourceProvider := none, MktPSRType := none,
    Period := some [samplePeriod] }

def samplePub : PubDoc :=
  { type := some "A44", mRID := some "doc-1",
    createdDateTime := some "2024-01-01T12:00:00Z",
    TimeSeries := some [sampleSeries] }

def sampleParsed : ParsedXml :=
  { Publication_MarketDocument := some samplePub, GL_MarketDocument := none,
    Unavailability_MarketDocument := none, BalancingMarketDocument := none }

def emptyParsed : ParsedXml :=
  { Publication_MarketDocument := none, GL_MarketDocument := none,
    Unavailability_MarketDocument := none, BalancingMarketDocument := none }

def singlePeriod : Period :=
  { timeInterval := some sampleInterval, resolution := some "PT60M",
    Point := some [samplePoint] }

def singleSeries : Series :=
  { sampleSeries with Period := some [singlePeriod] }

def singlePub : PubDoc :=
  { samplePub with TimeSeries := some [singleSeries] }

def singleParsed : ParsedXml :=
  { sampleParsed with Publication_MarketDocument := some singlePub }

def sampleDc : DocCtx :=
  { documentId := "doc-1", documentType := "A44",
    createdDateTime := "2024-01-01T12:00:00Z" }

def sampleMeta : SeriesMeta := seriesMeta sampleSeries

def zeroPricePoint : Point :=
  { position := some 1, quantity := none, price_amount := some 0 }

def anyRow : EntsoeRow :=
  { documentId := "", documentType := "", createdDateTime := "",
    businessType := "", curveType := "", timeStart := "", timeEnd := "",
    date := "", resolution := "", position := 0, quantity := 0,
    priceMeasureUnit := "", currencyUnit := "", quantityMeasureUnit := "",
    inDomain := "", outDomain := "", resourceProvider := "", price := none,
    resourceType := none, timestamp := 0 }

def c5Row : EntsoeRow :=
  (pointRow sampleDc sampleMeta "s" "e" "PT60M" 60 (some 0)
    zeroPricePoint).toOption.getD anyRow

def parisRow : JRow :=
  [("timeStart", .vstr "2024-06-01T22:00:00Z"), ("position", .vnum 1),
   ("resolution", .vstr "PT60M"), ("quantity", .vnum 5)]

def badRow : JRow :=
  [("documentId", .vstr "doc-1")]

/-! ### Claims -/

/-- C1: every row emitted by `parseEntsoeXML` stores as `timestamp` the
parsed period start plus `(position - 1)` resolution steps in minutes;
and `getUtcInstantFromRow` reconstructs exactly that instant whenever the
row's `timeStart` parses and its `position` is a finite number, ignoring
any `timestamp` field the row may carry. -/
theorem C1_timestamp_reconstruction :
    (∀ (p : ParsedXml) (rows : List EntsoeRow) (r : EntsoeRow),
        parseEntsoeXML p = .ok rows → r ∈ rows →
        ∃ s, parseDate r.timeStart = some s ∧
          r.timestamp = s + (r.position - 1) *
            xmlResolutionMinutes r.resolution * 60000)
    ∧ (∀ (row : JRow) (t0 : Int) (pos : Rat),
        toDate (jGet row "timeStart") = some t0 →
        jsToNumber (jGet row "position") = some pos →
        getUtcInstantFromRow row =
          some (jsTrunc ((t0 : Rat) + (pos - 1) *
            (parseResolutionMinutes (jGet row "resolution") : Rat) * 60000))
        ∧ ∀ v : JVal, getUtcInstantFromRow (jSet row "timestamp" v) =
            getUtcInstantFromRow row) := by
  constructor
  · intro p rows r hok hmem
    exact parseEntsoeXML_ok_mem_inv p rows hok r hmem
  · intro row t0 pos h1 h2
    constructor
    · simp only [getUtcInstantFromRow, h1, h2]
    · intro v
      have e1 : jGet (jSet row "timestamp" v) "timeStart" = jGet row "timeStart" :=
        jGet_jSet_ne _ _ _ _ (by decide)
      have e2 : jGet (jSet row "timestamp" v) "position" = jGet row "position" :=
        jGet_jSet_ne _ _ _ _ (by decide)
      have e3 : jGet (jSet row "timestamp" v) "resolution" = jGet row "resolution" :=
        jGet_jSet_ne _ _ _ _ (by decide)
      simp only [getUtcInstantFromRow, e1, e2, e3, h1, h2]

/-- C1 witness: on a concrete row the reconstructed instant follows the
formula and is unchanged when a `timestamp` field is spliced in. -/
theorem C1_witness :
    getUtcInstantFromRow parisRow =
      some (jsTrunc ((1717279200000 : Rat) + (1 - 1) *
        (parseResolutionMinutes (jGet parisRow "resolution") : Rat) * 60000)) ∧
    getUtcInstantFromRow (jSet parisRow "timestamp" (JVal.vdate 0)) =
      getUtcInstantFromRow parisRow :=
  ⟨(C1_timestamp_reconstruction.2 parisRow 1717279200000 1
      (by decide) (by decide)).1,
   (C1_timestamp_reconstruction.2 parisRow 1717279200000 1
      (by decide) (by decide)).2 (JVal.vdate 0)⟩

/-- C2: whenever `parseEntsoeXML` returns rows, their number is the sum
over all series and periods of that period's point count; an empty
series or period contributes zero rows without raising an error. -/
theorem C2_row_count :
    (∀ (p : ParsedXml) (pub : PubDoc) (rows : List EntsoeRow),
        publicationOf p = some pub → parseEntsoeXML p = .ok rows →
        rows.length = totalPoints pub)
    ∧ (∀ (dc : DocCtx) (s : Series), s.Period = some [] →
        seriesRows dc s = .ok [])
    ∧ (∀ (dc : DocCtx) (m : SeriesMeta) (per : Period), per.Point = some [] →
        periodRows dc m per = .ok []) := by
  refine ⟨parseEntsoeXML_ok_length, ?_, ?_⟩
  · intro dc s hs
    simp [seriesRows, hs]
  · intro dc m per hp
    simp [periodRows, hp]

/-- C2 witness: the sample document yields exactly its total point count. -/
theorem C2_witness :
    ((parseEntsoeXML sampleParsed).toOption.getD []).length =
      totalPoints samplePub :=
  C2_row_count.1 sampleParsed samplePub
    ((parseEntsoeXML sampleParsed).toOption.getD []) (by decide) (by rfl)

/-- C3: when none of the four known roots is bound, `parseEntsoeXML`
fails with the root decode error and yields no rows; when a root is
bound, that error is never raised. -/
theorem C3_root_detection :
    ∀ p : ParsedXml,
      (publicationOf p = none ↔
        p.Publication_MarketDocument = none ∧ p.GL_MarketDocument = none ∧
        p.Unavailability_MarketDocument = none ∧
        p.BalancingMarketDocument = none)
      ∧ (publicationOf p = none → parseEntsoeXML p = .error .noRoot)
      ∧ (publicationOf p ≠ none → parseEntsoeXML p ≠ .error .noRoot) := by
  intro p
  refine ⟨?_, ?_, ?_⟩
  · cases h1 : p.Publication_MarketDocument <;>
      cases h2 : p.GL_MarketDocument <;>
      cases h3 : p.Unavailability_MarketDocument <;>
      cases h4 : p.BalancingMarketDocument <;>
      simp [publicationOf, h1, h2, h3, h4, Option.orElse]
  · intro h
    simp [parseEntsoeXML, h]
  · intro h hcontra
    cases hp : publicationOf p with
    | none => exact h hp
    | some pub =>
      simp only [parseEntsoeXML, hp] at hcontra
      split at hcontra
      · cases hcontra
      · split at hcontra
        · cases hcontra
          rename_i hm
          rcases exceptMapM_error _ _ _ hm with ⟨s, _, hs⟩
          exact absurd (seriesRows_error _ _ _ hs) (by decide)
        · cases hcontra

/-- C3 witness: an all-absent root errors with the decode error; the
sample document does not. -/
theorem C3_witness :
    parseEntsoeXML emptyParsed = Except.error ParseErr.noRoot ∧
    parseEntsoeXML sampleParsed ≠ Except.error ParseErr.noRoot :=
  ⟨(C3_root_detection emptyParsed).2.1 (by decide),
   (C3_root_detection sampleParsed).2.2 (by decide)⟩

/-- C4 counterexample: during normalization an unrecognized resolution
code is mapped to 15 minutes, not 60, refuting the claim that the
60-minute fallback holds wherever the pipeline converts a code. -/
theorem C4_counterexample :
    parseResolutionMinutes (JVal.vstr "Unknown") ≠ 60 ∧
    parseResolutionMinutes (JVal.vstr "Unknown") = 15 ∧
    parseResolutionMinutes (JVal.vstr "PT45M") = 45 := by decide

/-- C4 amended: in `parseEntsoeXML` the fixed table PT15M→15, PT30M→30,
PT60M→60 applies with a 60-minute default for unrecognized codes; in the
normalization step `parseResolutionMinutes` instead accepts any
`PT(\d+)M` code (case-insensitively) as that many minutes and defaults
to 15 for non-strings and unmatched strings. -/
theorem C4_amended_resolution :
    (∀ c : String, c ≠ "PT15M" → c ≠ "PT30M" → c ≠ "PT60M" →
      xmlResolutionMinutes c = 60)
    ∧ xmlResolutionMinutes "PT15M" = 15
    ∧ xmlResolutionMinutes "PT30M" = 30
    ∧ xmlResolutionMinutes "PT60M" = 60
    ∧ (∀ v : JVal, (∀ s : String, v ≠ JVal.vstr s) →
        parseResolutionMinutes v = 15)
    ∧ parseResolutionMinutes (JVal.vstr "Unknown") = 15
    ∧ parseResolutionMinutes (JVal.vstr "PT45M") = 45
    ∧ parseResolutionMinutes (JVal.vstr "pt30m") = 30 := by
  refine ⟨?_, by decide, by decide, by decide, ?_, by decide, by decide,
    by decide⟩
  · intro c h1 h2 h3
    simp [xmlResolutionMinutes, resolutionMap, h1, h2, h3]
  · intro v hv
    cases v with
    | vstr s => exact absurd rfl (hv s)
    | vundef => rfl
    | vnull => rfl
    | vnum q => rfl
    | vdate ms => rfl

/-- C4 witness: the parser-side default really is 60 on a code outside
the table, and the normalization-side default is 15 on a non-string. -/
theorem C4_witness :
    xmlResolutionMinutes "XYZ" = 60 ∧
    parseResolutionMinutes JVal.vundef = 15 :=
  ⟨C4_amended_resolution.1 "XYZ" (by decide) (by decide) (by decide),
   C4_amended_resolution.2.2.2.2.1 JVal.vundef
     (by intro s h; cases h)⟩

/-- C5: an absent `price.amount` yields an absent row price, a present
one (including 0) is kept as that number, an absent quantity becomes the
number 0, and a present quantity is kept as that number. -/
theorem C5_price_quantity :
    ∀ (dc : DocCtx) (m : SeriesMeta) (ss es rc : String) (rm : Int)
      (sm : Option Int) (pt : Point) (r : EntsoeRow),
      pointRow dc m ss es rc rm sm pt = .ok r →
      (pt.price_amount = none → r.price = none)
      ∧ (∀ q : Rat, pt.price_amount = some q → r.price = some q)
      ∧ (pt.quantity = none → r.quantity = 0)
      ∧ (∀ q : Rat, pt.quantity = some q → r.quantity = q) := by
  intro dc m ss es rc rm sm pt r h
  simp only [pointRow] at h
  cases sm with
  | none => cases h
  | some s =>
    cases h
    exact ⟨fun hp => by simp [hp], fun q hq => by simp [hq],
      fun hq => by simp [hq], fun q hq => by simp [hq]⟩

/-- C5 witness: a concrete point with `price.amount` 0 and no quantity
yields price `some 0` and quantity `0`. -/
theorem C5_witness :
    c5Row.price = some 0 ∧ c5Row.quantity = 0 :=
  ⟨(C5_price_quantity sampleDc sampleMeta "s" "e" "PT60M" 60 (some 0)
      zeroPricePoint c5Row (by rfl)).2.1 0 rfl,
   (C5_price_quantity sampleDc sampleMeta "s" "e" "PT60M" 60 (some 0)
      zeroPricePoint c5Row (by rfl)).2.2.1 rfl⟩

/-- C6: `normalizeA44` emits one row per input row, and when the
reconstructed instant is unavailable the display fields are the "-"
sentinel and the timestamp is null. -/
theorem C6_row_always_emitted :
    (∀ rows : List JRow, (normalizeA44 rows).length = rows.length)
    ∧ (∀ row : JRow, getUtcInstantFromRow row = none →
        jGet (normRow row) "date" = .vstr "-"
        ∧ jGet (normRow row) "heure" = .vstr "-"
        ∧ jGet (normRow row) "timestamp" = .vnull) := by
  constructor
  · intro rows
    simp [normalizeA44]
  · intro row h
    simp only [normRow, h]
    refine ⟨?_, ?_, ?_⟩
    · rw [jGet_jSet_ne _ _ _ _ (by decide), jGet_jSet_ne _ _ _ _ (by decide),
        jGet_jSet_same]
    · rw [jGet_jSet_ne _ _ _ _ (by decide), jGet_jSet_same]
    · rw [jGet_jSet_same]

/-- C6 witness: a row with no usable timestamp data is still emitted,
with sentinel display fields and a null timestamp. -/
theorem C6_witness :
    jGet (normRow badRow) "date" = JVal.vstr "-" ∧
    jGet (normRow badRow) "heure" = JVal.vstr "-" ∧
    jGet (normRow badRow) "timestamp" = JVal.vnull :=
  C6_row_always_emitted.2 badRow (by decide)

/-- C7: the five metadata fields and the resource provider default to
"Unknown" when their source is absent, while the resource type is the
first resource-type entry when the list is non-empty and stays absent
(not "Unknown") when it is empty or missing. -/
theorem C7_series_metadata :
    ∀ s : Series,
      (s.in_Domain_mRID = none → (seriesMeta s).inDomain = "Unknown")
      ∧ (s.out_Domain_mRID = none → (seriesMeta s).outDomain = "Unknown")
      ∧ (s.price_Measure_Unit_name = none →
          (seriesMeta s).priceMeasureUnit = "Unknown")
      ∧ (s.currency_Unit_name = none →
          (seriesMeta s).currencyUnit = "Unknown")
      ∧ (s.quantity_Measure_Unit_name = none →
          (seriesMeta s).quantityMeasureUnit = "Unknown")
      ∧ (s.resourceProvider = none →
          (seriesMeta s).resourceProvider = "Unknown")
      ∧ (s.MktPSRType = none ∨ s.MktPSRType = some [] →
          (seriesMeta s).resourceType = none)
      ∧ (∀ (m : MktPSR) (rest : List MktPSR) (ty : String),
          s.MktPSRType = some (m :: rest) → m.psrType = some ty → ty ≠ "" →
          (seriesMeta s).resourceType = some ty) := by
  intro s
  refine ⟨fun h => by simp [seriesMeta, strOrUnknown, h],
    fun h => by simp [seriesMeta, strOrUnknown, h],
    fun h => by simp [seriesMeta, strOrUnknown, h],
    fun h => by simp [seriesMeta, strOrUnknown, h],
    fun h => by simp [seriesMeta, strOrUnknown, h],
    fun h => by simp [seriesMeta, jsOrStr, h], ?_, ?_⟩
  · rintro (h | h) <;> simp [seriesMeta, resourceTypeOf, h]
  · intro m rest ty hl hp hne
    simp [seriesMeta, resourceTypeOf, hl, hp, hne]

/-- C7 witness: a series with every sub-object absent resolves to
"Unknown" metadata and an absent resource type; one with a non-empty
resource-type list resolves to its first entry. -/
theorem C7_witness :
    (seriesMeta bareSeries).inDomain = "Unknown" ∧
    (seriesMeta bareSeries).resourceProvider = "Unknown" ∧
    (seriesMeta bareSeries).resourceType = none ∧
    (seriesMeta psrSeries).resourceType = some "B16" :=
  ⟨(C7_series_metadata bareSeries).1 rfl,
   (C7_series_metadata bareSeries).2.2.2.2.2.1 rfl,
   (C7_series_metadata bareSeries).2.2.2.2.2.2.1 (Or.inl rfl),
   (C7_series_metadata psrSeries).2.2.2.2.2.2.2 { psrType := some "B16" } []
     "B16" rfl rfl (by decide)⟩

/-- C8: the parser configuration forces TimeSeries, Period, Point,
MktPSRType and Reason to be decoded as sequences, and a document with a
single series, period and point yields exactly one row. -/
theorem C8_sequence_config :
    (isArrayElement "TimeSeries" = true ∧ isArrayElement "Period" = true ∧
     isArrayElement "Point" = true ∧ isArrayElement "MktPSRType" = true ∧
     isArrayElement "Reason" = true)
    ∧ (∀ (p : ParsedXml) (pub : PubDoc) (s : Series) (per : Period)
        (pt : Point) (rows : List EntsoeRow),
        publicationOf p = some pub → pub.TimeSeries = some [s] →
        s.Period = some [per] → per.Point = some [pt] →
        parseEntsoeXML p = .ok rows → rows.length = 1) := by
  refine ⟨⟨rfl, rfl, rfl, rfl, rfl⟩, ?_⟩
  intro p pub s per pt rows hp hts hper hpt hok
  have h := parseEntsoeXML_ok_length p pub rows hp hok
  simpa [totalPoints, seriesPointCount, hts, hper, hpt] using h

/-- C8 witness: a document with one series, one period and one point
yields exactly one row. -/
theorem C8_witness :
    ((parseEntsoeXML singleParsed).toOption.getD []).length = 1 :=
  C8_sequence_config.2 singleParsed singlePub singleSeries singlePeriod
    samplePoint ((parseEntsoeXML singleParsed).toOption.getD [])
    (by decide) rfl rfl rfl (by rfl)

/-- C9: for a reconstructable instant, the normalized row renders the
Europe/Paris date and HH:mm time of the second-zeroed instant; the
instant 2024-06-01T22:00:00Z renders as 2024-06-02 and 00:00. -/
theorem C9_paris_rendering :
    (∀ (row : JRow) (t : Int), getUtcInstantFromRow row = some t →
      jGet (normRow row) "date" = .vstr (parisDateString (zeroSeconds t))
      ∧ jGet (normRow row) "heure" = .vstr (parisTimeString (zeroSeconds t))
      ∧ jGet (normRow row) "timestamp" =
          .vstr (parisDateString (zeroSeconds t) ++ " " ++
            parisTimeString (zeroSeconds t)))
    ∧ parseDate "2024-06-01T22:00:00Z" = some 1717279200000
    ∧ parisDateString (zeroSeconds 1717279200000) = "2024-06-02"
    ∧ parisTimeString (zeroSeconds 1717279200000) = "00:00" := by
  refine ⟨?_, by decide, by decide, by decide⟩
  intro row t h
  simp only [normRow, h]
  refine ⟨?_, ?_, ?_⟩
  · rw [jGet_jSet_ne _ _ _ _ (by decide), jGet_jSet_ne _ _ _ _ (by decide),
      jGet_jSet_same]
  · rw [jGet_jSet_ne _ _ _ _ (by decide), jGet_jSet_same]
  · rw [jGet_jSet_same]

/-- C9 witness: the concrete row whose instant is 2024-06-01T22:00:00Z
renders as date 2024-06-02 and time 00:00. -/
theorem C9_witness :
    jGet (normRow parisRow) "date" = JVal.vstr "2024-06-02" ∧
    jGet (normRow parisRow) "heure" = JVal.vstr "00:00" := by
  have h0 : toDate (jGet parisRow "timeStart") = some 1717279200000 := by
    decide
  have h1 : jsToNumber (jGet parisRow "position") = some 1 := by decide
  have h2 : ((1717279200000 : Int) : Rat) + ((1 : Rat) - 1) *
      ((parseResolutionMinutes (jGet parisRow "resolution") : Int) : Rat) *
        60000 = ((1717279200000 : Int) : Rat) := by
    push_cast
    ring
  have hinst : getUtcInstantFromRow parisRow = some 1717279200000 := by
    simp only [getUtcInstantFromRow, h0, h1, h2, jsTrunc, Rat.num_intCast,
      Rat.den_intCast, Nat.cast_one, Int.tdiv_one]
  have h := C9_paris_rendering.1 parisRow 1717279200000 hinst
  refine ⟨?_, ?_⟩
  · rw [h.1]
    decide
  · rw [h.2.1]
    decide

/-- C10: `normalizeA44` returns one output row per input row in order,
and only the `date`, `heure` and `timestamp` fields are overwritten;
every other field reads unchanged. -/
theorem C10_frame :
    (∀ rows : List JRow, (normalizeA44 rows).length = rows.length)
    ∧ (∀ (rows : List JRow) (i : Nat),
        (normalizeA44 rows)[i]? = (rows[i]?).map normRow)
    ∧ (∀ (row : JRow) (k : String),
        k ≠ "date" → k ≠ "heure" → k ≠ "timestamp" →
        jGet (normRow row) k = jGet row k) := by
  refine ⟨fun rows => by simp [normalizeA44],
    fun rows i => by simp [normalizeA44], ?_⟩
  intro row k h1 h2 h3
  cases hI : getUtcInstantFromRow row <;>
    simp only [normRow, hI] <;>
    rw [jGet_jSet_ne _ _ _ _ (Ne.symm h3), jGet_jSet_ne _ _ _ _ (Ne.symm h2),
      jGet_jSet_ne _ _ _ _ (Ne.symm h1)]

/-- C10 witness: an untouched field of a concrete row reads unchanged,
and a two-row input yields two output rows in order. -/
theorem C10_witness :
    jGet (normRow parisRow) "quantity" = jGet parisRow "quantity" ∧
    (normalizeA44 [parisRow, badRow]).length = 2 ∧
    (normalizeA44 [parisRow, badRow])[1]? = some (normRow badRow) :=
  ⟨C10_frame.2.2 parisRow "quantity" (by decide) (by decide) (by decide),
   C10_frame.1 [parisRow, badRow],
   C10_frame.2.1 [parisRow, badRow] 1⟩
